import Mathlib

/-!
Verification of the file-based API of the `pii-manager` package
(`src/pii_manager/api/file.py`): the stream resolver `openfile`, the
segmenter `sentence_splitter`, the extraction writer `write_extract`, and
the processing dispatcher `process_file`.

The Python functions are shallowly embedded as executable Lean functions.
Documents are the decoded text contents of a stream (Python reads files in
text mode, so universal-newline translation has already happened); they are
modelled as `String` and handled character-wise through `String.data`.
-/

set_option autoImplicit false

/-! Section: Stream resolver (`openfile`)

`openfile(name, mode)` returns `sys.stdout`/`sys.stdin` for the sentinel
name `"-"` (depending on whether the mode starts with `"w"`), and otherwise
dispatches on the file suffix: `.gz` → gzip, `.bz2` → bzip2, `.xz` → lzma,
anything else a plain `open`.  We model the returned stream symbolically. -/

/-- Python `str.startswith(prefix)` over the character-list model of
strings (true iff the prefix's characters lead the string). -/
def startswith (s pre : String) : Bool := pre.data.isPrefixOf s.data

/-- Python `str.endswith(suffix)` over the character-list model. -/
def endswith (s post : String) : Bool := post.data.isSuffixOf s.data

inductive TextStream where
  | stdout : TextStream
  | stdin : TextStream
  | gzipFile (name mode : String) : TextStream
  | bz2File (name mode : String) : TextStream
  | xzFile (name mode : String) : TextStream
  | plainFile (name mode : String) : TextStream
deriving DecidableEq

def openfile (name : String) (mode : String) : TextStream :=
  if name = "-" then
    (if startswith mode "w" then TextStream.stdout else TextStream.stdin)
  else if endswith name ".gz" then TextStream.gzipFile name mode
  else if endswith name ".bz2" then TextStream.bz2File name mode
  else if endswith name ".xz" then TextStream.xzFile name mode
  else TextStream.plainFile name mode

/-! Section: Segmenter (`sentence_splitter`)

Python code:
```
split = re.split(r"(\s*[\.!\?．。]\s+)", doc)
args = [iter(split)] * 2
for sentence, sep in zip_longest(*args, fillvalue=""):
    if sentence:
        yield sentence + sep
```
The separator regex is `\s*` (optional whitespace), one character of the
class `[.!?．。]`, then `\s+` (mandatory whitespace).  `re.split` with a
capturing group returns the non-separator spans interleaved with the
captured separators.  Since none of the five punctuation characters is a
whitespace character, the greedy backtracking search for a match starting
at a given position is equivalent to: take the maximal whitespace run, then
require a class character, then a non-empty maximal whitespace run. -/

/-- The characters matched by Python's `\s` in unicode (str) mode. -/
def pySpaceList : List Char :=
  ['\t', '\n', '\x0b', '\x0c', '\r', '\x1c', '\x1d', '\x1e', '\x1f', ' ',
   '\x85', '\xa0', ' ', ' ', ' ', ' ', ' ',
   ' ', ' ', ' ', ' ', ' ', ' ', ' ',
   ' ', ' ', ' ', ' ', '　']

def isPySpace (c : Char) : Bool := pySpaceList.contains c

/-- The sentence-terminal punctuation class `[\.!\?．。]` of the regex:
ASCII period, exclamation and question mark, fullwidth period (U+FF0E) and
ideographic full stop (U+3002). -/
def sepChars : List Char := ['.', '!', '?', '．', '。']

/-- Try to match the separator regex `\s*[\.!\?．。]\s+` at the start of
`l`; on success return the matched separator and the remaining input. -/
def matchSep (l : List Char) : Option (List Char × List Char) :=
  match l.drop (l.takeWhile isPySpace).length with
  | [] => none
  | p :: r2 =>
    if sepChars.contains p then
      if (r2.takeWhile isPySpace).isEmpty then none
      else some (l.takeWhile isPySpace ++ p :: r2.takeWhile isPySpace,
                 r2.drop (r2.takeWhile isPySpace).length)
    else none

theorem matchSep_rest_lt (l sep r : List Char)
    (h : matchSep l = some (sep, r)) : r.length < l.length := by
  unfold matchSep at h
  split at h
  · exact absurd h (by simp)
  · rename_i p r2 hd
    split at h
    · split at h
      · exact absurd h (by simp)
      · obtain ⟨h1, h2⟩ := Prod.mk.inj (Option.some.inj h)
        have hlen := congrArg List.length hd
        simp only [List.length_drop, List.length_cons] at hlen
        have h3 : (r2.drop (r2.takeWhile isPySpace).length).length ≤ r2.length := by
          simp [List.length_drop]
        have h4 := congrArg List.length h2
        omega
    · exact absurd h (by simp)

/-- Model of `re.split` with the captured separator, as a scan over the
    character list: `acc` is the current non-separator span; at each position, first
    try the separator regex, otherwise advance one character.  The scan
    advances at least one character per step, so `l.length` fuel is always
    enough; the fuel-exhausted branch is never reached. -/
def reSplitFuel : Nat → List Char → List Char → List (List Char)
  | 0, l, acc => [acc ++ l]
  | _ + 1, [], acc => [acc]
  | fuel + 1, c :: rest, acc =>
    match matchSep (c :: rest) with
    | some (sep, r) => acc :: sep :: reSplitFuel fuel r []
    | none => reSplitFuel fuel rest (acc ++ [c])

def reSplit (l : List Char) : List (List Char) := reSplitFuel l.length l []

/-- Model of `zip_longest(*([iter(split)] * 2), fillvalue="")`: pair consecutive
elements, the last one with `""` when the count is odd (it always is:
`re.split` with one capture returns an odd number of pieces). -/
def pairUp : List (List Char) → List (List Char × List Char)
  | [] => []
  | [a] => [(a, [])]
  | a :: b :: rest => (a, b) :: pairUp rest

/-- The generator body: `sentence_splitter` yields `sentence + sep` for each pair whose
non-separator span is truthy (non-empty). -/
def sentence_splitter (doc : String) : List String :=
  (pairUp (reSplit doc.data)).filterMap fun p =>
    if p.1.isEmpty then none else some (String.mk (p.1 ++ p.2))

/-- Sanity check: the worked example of the documentation, with the
separator kept at the end of the first unit. -/
theorem sentence_splitter_example :
    sentence_splitter "Hello. World!" = ["Hello. ", "World!"] := by decide

/-! Section: Line splitting

`process_file` with `split == "line"` iterates `for n, line in
enumerate(fin)`: Python yields one physical line at a time, each keeping
its trailing `'\n'`; a final segment without a terminator is still yielded,
and an empty file yields nothing. -/

def splitLinesChars : List Char → List (List Char)
  | [] => []
  | c :: rest =>
    if c = '\n' then ['\n'] :: splitLinesChars rest
    else
      match splitLinesChars rest with
      | [] => [[c]]
      | l :: ls => (c :: l) :: ls

def splitLines (s : String) : List String :=
  (splitLinesChars s.data).map String.mk

/-- Concatenation of a list of strings (the reconstruction of a document
from its units). -/
def concatList (l : List String) : String := l.foldr (· ++ ·) ""

theorem splitLinesChars_ne_nil (c : Char) (rest : List Char) :
    splitLinesChars (c :: rest) ≠ [] := by
  unfold splitLinesChars
  split
  · simp
  · split <;> simp

theorem flatten_splitLinesChars (l : List Char) : (splitLinesChars l).flatten = l := by
  induction l with
  | nil => rfl
  | cons c rest ih =>
    unfold splitLinesChars
    split
    · rename_i h
      subst h
      simpa using ih
    · cases hs : splitLinesChars rest with
      | nil =>
        have hrest : rest = [] := by
          cases rest with
          | nil => rfl
          | cons d l2 => exact absurd hs (splitLinesChars_ne_nil d l2)
        subst hrest
        rfl
      | cons p ps =>
        rw [hs] at ih
        rw [List.flatten_cons] at ih
        show ((c :: p) :: ps).flatten = c :: rest
        rw [List.flatten_cons, List.cons_append, ih]

theorem mk_append (a b : List Char) :
    String.mk a ++ String.mk b = String.mk (a ++ b) := rfl

theorem concatList_map_mk (L : List (List Char)) :
    concatList (L.map String.mk) = String.mk L.flatten := by
  induction L with
  | nil => rfl
  | cons a L ih =>
    simp only [List.map_cons, concatList, List.foldr_cons, List.flatten_cons] at ih ⊢
    rw [ih, mk_append]

theorem concat_splitLines (s : String) : concatList (splitLines s) = s := by
  unfold splitLines
  rw [concatList_map_mk, flatten_splitLinesChars]

/-! Section: Processing dispatcher (`process_file`)

`process_file` builds the engine, then opens the input stream (`"rt"`) and
the output stream (`"wt"`), and dispatches on `split`: `"block"` calls the
engine once on `fin.read()`; `"line"` loops over `enumerate(fin)` writing
with index `{"line": n + 1}`; `"sentence"` loops over
`enumerate(sentence_splitter(fin.read()))` with index `{"sentence": n + 1}`;
anything else raises `PiiManagerException("invalid split mode: {}", split)`.
Note the order in the source: both `openfile` calls (lines 115–116) happen
before the dispatch on `split` (lines 117–126).

We model one run as the ordered trace of its I/O-relevant events, with the
engine abstracted as a pure function `proc` (substitution-style mode, where
`write` appends `proc(unit)` to the output) and `doc` the text content of
the input stream; the model assumes both opens succeed. -/

inductive Ev where
  | openRead (name : String) : Ev
  | openWrite (name : String) : Ev
  | engine (unit : String) : Ev
  | writeOut (result : String) (index : Option (String × Nat)) : Ev
  | err (msg : String) : Ev
deriving DecidableEq

def process_file (infile outfile : String) (split : String)
    (proc : String → String) (doc : String) : List Ev :=
  Ev.openRead infile :: Ev.openWrite outfile ::
    (if split = "block" then
      [Ev.engine doc, Ev.writeOut (proc doc) none]
    else if split = "line" then
      ((splitLines doc).enum.map fun p =>
        [Ev.engine p.2, Ev.writeOut (proc p.2) (some ("line", p.1 + 1))]).flatten
    else if split = "sentence" then
      ((sentence_splitter doc).enum.map fun p =>
        [Ev.engine p.2, Ev.writeOut (proc p.2) (some ("sentence", p.1 + 1))]).flatten
    else [Ev.err ("invalid split mode: " ++ split)])

/-- The units passed to the engine, in order. -/
def engineCalls (t : List Ev) : List String :=
  t.filterMap fun e => match e with | Ev.engine u => some u | _ => none

/-- The write calls, in order: engine result and index descriptor. -/
def writeEvents (t : List Ev) : List (String × Option (String × Nat)) :=
  t.filterMap fun e => match e with | Ev.writeOut r i => some (r, i) | _ => none

/-- The text written to the output stream (substitution-style modes write
each engine result verbatim). -/
def outputText (t : List Ev) : String :=
  concatList ((writeEvents t).map Prod.fst)

theorem engineCalls_loop (proc : String → String)
    (f : Nat → Option (String × Nat)) (P : List (Nat × String)) :
    engineCalls ((P.map fun p =>
        [Ev.engine p.2, Ev.writeOut (proc p.2) (f p.1)]).flatten)
      = P.map Prod.snd := by
  induction P with
  | nil => rfl
  | cons a P ih => simp [engineCalls, List.filterMap_append] at ih ⊢; exact ih

theorem writeEvents_loop (proc : String → String)
    (f : Nat → Option (String × Nat)) (P : List (Nat × String)) :
    writeEvents ((P.map fun p =>
        [Ev.engine p.2, Ev.writeOut (proc p.2) (f p.1)]).flatten)
      = P.map fun p => (proc p.2, f p.1) := by
  induction P with
  | nil => rfl
  | cons a P ih => simp [writeEvents, List.filterMap_append] at ih ⊢; exact ih

/-! Section: Extraction writer (`write_extract`)

For each detected entity `pii`, the writer builds the dict
`elem = {"name": pii.elem.name, "value": pii.value, "pos": pii.pos}`,
merges the index descriptor into it when the index is truthy, and emits it
with `json.dump(elem, out, ensure_ascii=False)` followed by a newline — one
compact JSON line per finding, in encounter order, with insertion-ordered
keys and the default separators `", "` and `": "`.  With
`ensure_ascii=False`, CPython's JSON encoder escapes only the quote, the
backslash and the control characters below U+0020 (short escapes for
`\b \t \n \f \r`, `\u00XX` for the rest); every other character — in
particular every non-ASCII character — is written verbatim. -/

structure PiiTask where
  name : String
deriving DecidableEq

structure PiiValue where
  elem : PiiTask
  value : String
  pos : Nat
deriving DecidableEq

def hexDigitChar (n : Nat) : Char :=
  if n < 10 then Char.ofNat (48 + n) else Char.ofNat (87 + n)

/-- CPython `json` string escaping with `ensure_ascii=False`, one character
at a time. -/
def jsonEscapeChar (c : Char) : List Char :=
  if c = '"' then ['\\', '"']
  else if c = '\\' then ['\\', '\\']
  else if c = '\x08' then ['\\', 'b']
  else if c = '\t' then ['\\', 't']
  else if c = '\n' then ['\\', 'n']
  else if c = '\x0c' then ['\\', 'f']
  else if c = '\r' then ['\\', 'r']
  else if c.toNat < 0x20 then
    ['\\', 'u', '0', '0', hexDigitChar (c.toNat / 16), hexDigitChar (c.toNat % 16)]
  else [c]

/-- A JSON string literal: quoted, characters escaped as CPython does with
`ensure_ascii=False`. -/
def jsonString (s : String) : String :=
  String.mk ('"' :: (s.data.map jsonEscapeChar).flatten ++ ['"'])

/-- The single JSON line emitted for one finding: keys in insertion order
(`name`, `value`, `pos`, then the index key when the index is present). -/
def recordLine (p : PiiValue) (index : Option (String × Nat)) : String :=
  "\x7b\"name\": " ++ jsonString p.elem.name
    ++ ", \"value\": " ++ jsonString p.value
    ++ ", \"pos\": " ++ toString p.pos
    ++ (match index with
        | none => ""
        | some kn => ", " ++ jsonString kn.1 ++ ": " ++ toString kn.2)
    ++ "\x7d"

/-- The writer `write_extract`: the list of JSON lines written, one per finding, in
encounter order (each is followed by a newline by `print(file=out)`). -/
def write_extract (result : List PiiValue) (index : Option (String × Nat)) :
    List String :=
  result.map fun p => recordLine p index

theorem jsonEscapeChar_nonascii (c : Char) (h : 0x80 ≤ c.toNat) :
    jsonEscapeChar c = [c] := by
  have hq : c ≠ '"' := fun hc => by subst hc; exact absurd h (by decide)
  have hb : c ≠ '\\' := fun hc => by subst hc; exact absurd h (by decide)
  have h8 : c ≠ '\x08' := fun hc => by subst hc; exact absurd h (by decide)
  have ht : c ≠ '\t' := fun hc => by subst hc; exact absurd h (by decide)
  have hn : c ≠ '\n' := fun hc => by subst hc; exact absurd h (by decide)
  have hf : c ≠ '\x0c' := fun hc => by subst hc; exact absurd h (by decide)
  have hr : c ≠ '\r' := fun hc => by subst hc; exact absurd h (by decide)
  have hc : ¬ c.toNat < 0x20 := by omega
  simp [jsonEscapeChar, hq, hb, h8, ht, hn, hf, hr, hc]

theorem mem_jsonString_of_nonascii (s : String) (c : Char)
    (hmem : c ∈ s.data) (h : 0x80 ≤ c.toNat) : c ∈ (jsonString s).data := by
  unfold jsonString
  have : c ∈ (s.data.map jsonEscapeChar).flatten := by
    rw [List.mem_flatten]
    exact ⟨[c], List.mem_map.2 ⟨c, hmem, jsonEscapeChar_nonascii c h⟩,
      List.mem_singleton.2 rfl⟩
  simp [List.mem_append, this]

theorem data_append (a b : String) : (a ++ b).data = a.data ++ b.data := rfl

theorem mem_recordLine_of_nonascii (p : PiiValue) (index : Option (String × Nat))
    (c : Char) (hmem : c ∈ p.value.data) (h : 0x80 ≤ c.toNat) :
    c ∈ (recordLine p index).data := by
  unfold recordLine
  simp only [data_append, List.mem_append]
  exact Or.inl (Or.inl (Or.inl (Or.inl (Or.inr
    (mem_jsonString_of_nonascii p.value c hmem h)))))

/-! Section: Trace projections of `process_file` (shared helper lemmas) -/

theorem pf_block_trace (infile outfile doc : String) (proc : String → String) :
    process_file infile outfile "block" proc doc
      = [Ev.openRead infile, Ev.openWrite outfile,
         Ev.engine doc, Ev.writeOut (proc doc) none] := rfl

theorem pf_line_trace (infile outfile doc : String) (proc : String → String) :
    process_file infile outfile "line" proc doc
      = Ev.openRead infile :: Ev.openWrite outfile ::
          ((splitLines doc).enum.map fun p =>
            [Ev.engine p.2, Ev.writeOut (proc p.2) (some ("line", p.1 + 1))]).flatten := by
  unfold process_file
  rw [if_neg (by decide), if_pos rfl]

theorem pf_sentence_trace (infile outfile doc : String) (proc : String → String) :
    process_file infile outfile "sentence" proc doc
      = Ev.openRead infile :: Ev.openWrite outfile ::
          ((sentence_splitter doc).enum.map fun p =>
            [Ev.engine p.2, Ev.writeOut (proc p.2) (some ("sentence", p.1 + 1))]).flatten := by
  unfold process_file
  rw [if_neg (by decide), if_neg (by decide), if_pos rfl]

theorem engineCalls_opens (a b : String) (t : List Ev) :
    engineCalls (Ev.openRead a :: Ev.openWrite b :: t) = engineCalls t := rfl

theorem writeEvents_opens (a b : String) (t : List Ev) :
    writeEvents (Ev.openRead a :: Ev.openWrite b :: t) = writeEvents t := rfl

/-! Section: The claims -/

/-- C1: the spec and the function's own docstring promise that
concatenating all units yielded by `sentence_splitter` reproduces the
document exactly.  The code drops the captured separator whenever the
preceding non-separator span is empty (`if sentence:`), so any document
that begins with a separator match — e.g. `". a"` — is not reconstructible:
the splitter yields only `["a"]` and the leading `". "` is lost. -/
theorem c1_roundtrip_fails_on_leading_separator :
    sentence_splitter ". a" = ["a"]
    ∧ concatList (sentence_splitter ". a") ≠ ". a" := by
  constructor
  · decide
  · decide

/-- C2 (counterexample): with the invalid granularity `"paragraph"`, the
run's very first event is opening the input stream for reading; the
invalid-configuration error is only raised afterwards.  This refutes the
claim that the failure happens before any stream is opened for reading. -/
theorem c2_counterexample_streams_opened_before_failure :
    process_file "in.txt" "out.txt" "paragraph" id "x"
      = [Ev.openRead "in.txt", Ev.openWrite "out.txt",
         Ev.err "invalid split mode: paragraph"]
    ∧ (process_file "in.txt" "out.txt" "paragraph" id "x").head?
        = some (Ev.openRead "in.txt") := by
  constructor
  · decide
  · decide

/-- C2 (amended): for every granularity outside
`{"block", "line", "sentence"}`, `process_file` raises the
invalid-split-mode error; the error is raised after the input and output
streams have been opened, but before any read, engine invocation or write
happens on them — the trace is exactly the two opens followed by the
error. -/
theorem c2_invalid_split_fails_after_open_before_data
    (infile outfile split doc : String) (proc : String → String)
    (h1 : split ≠ "block") (h2 : split ≠ "line") (h3 : split ≠ "sentence") :
    process_file infile outfile split proc doc
      = [Ev.openRead infile, Ev.openWrite outfile,
         Ev.err ("invalid split mode: " ++ split)] := by
  unfold process_file
  rw [if_neg h1, if_neg h2, if_neg h3]

/-- C2 (witness): the amended claim at granularity `"paragraph"`. -/
theorem c2_witness :
    process_file "in.txt" "out.txt" "paragraph" id "x"
      = [Ev.openRead "in.txt", Ev.openWrite "out.txt",
         Ev.err ("invalid split mode: " ++ "paragraph")] :=
  c2_invalid_split_fails_after_open_before_data "in.txt" "out.txt" "paragraph"
    "x" id (by decide) (by decide) (by decide)

/-- C3 (counterexample): the separator class of the regex is
`[.!?．。]` — it does not contain the fullwidth exclamation mark U+FF01 or
the fullwidth question mark U+FF1F.  A document with `！` or `？` followed
by whitespace is not split there: it comes back as a single unit. -/
theorem c3_counterexample_fullwidth_exclamation_not_separator :
    sentence_splitter "a！ b" = ["a！ b"]
    ∧ sentence_splitter "a？ b" = ["a？ b"] := by
  constructor
  · decide
  · decide

/-- C3 (amended): the separator set covers the ASCII terminals `.`, `!`,
`?`, the fullwidth period U+FF0E and the ideographic full stop U+3002 —
each of them, followed by whitespace, splits the document — but not the
fullwidth exclamation or question marks, which are passed through
unsplit. -/
theorem c3_separator_set :
    (∀ c ∈ sepChars,
      sentence_splitter (String.mk ['a', c, ' ', 'b'])
        = [String.mk ['a', c, ' '], "b"])
    ∧ sentence_splitter "a！ b" = ["a！ b"]
    ∧ sentence_splitter "a？ b" = ["a？ b"] := by
  refine ⟨?_, by decide, by decide⟩
  intro c hc
  fin_cases hc <;> decide

/-- C3 (witness): the amended claim at the ASCII period. -/
theorem c3_witness :
    sentence_splitter (String.mk ['a', '.', ' ', 'b'])
      = [String.mk ['a', '.', ' '], "b"] :=
  c3_separator_set.1 '.' (by decide)

/-- C4 (counterexample): the empty document contains no separator match
(`re.split` returns the single piece `[""]`), yet `sentence_splitter`
yields no unit at all rather than one unit equal to the whole document. -/
theorem c4_counterexample_empty_document :
    reSplit "".data = ["".data]
    ∧ sentence_splitter "" = []
    ∧ sentence_splitter "" ≠ [""] := by
  refine ⟨by decide, by decide, by decide⟩

/-- C4 (amended): every *non-empty* document without a separator match is
yielded as exactly one unit equal to the whole document. -/
theorem c4_no_separator_single_unit (doc : String) (hne : doc ≠ "")
    (hns : reSplit doc.data = [doc.data]) :
    sentence_splitter doc = [doc] := by
  have hd : doc.data ≠ [] := by
    intro h
    apply hne
    cases doc with
    | mk data =>
      subst h
      rfl
  unfold sentence_splitter
  rw [hns]
  show List.filterMap _ [(doc.data, [])] = [doc]
  rw [List.filterMap_cons]
  have hempty : (doc.data).isEmpty = false := by
    simpa [List.isEmpty_iff] using hd
  simp only [hempty, Bool.false_eq_true, if_false, List.filterMap_nil]
  rw [List.append_nil]

/-- C4 (witness): the amended claim at the document `"Hello"`. -/
theorem c4_witness : sentence_splitter "Hello" = ["Hello"] :=
  c4_no_separator_single_unit "Hello" (by decide) (by decide)

/-- C8: with the sentinel name `"-"`, `openfile` never dispatches on a file
suffix: it returns the standard output stream exactly for modes starting
with `"w"` (write modes) and the standard input stream for every other
mode (in particular read modes), never a codec-backed file stream. -/
theorem c8_dash_sentinel (mode : String) :
    openfile "-" mode
      = (if startswith mode "w" then TextStream.stdout else TextStream.stdin)
    ∧ ∀ n m : String,
        openfile "-" mode ≠ TextStream.gzipFile n m
        ∧ openfile "-" mode ≠ TextStream.bz2File n m
        ∧ openfile "-" mode ≠ TextStream.xzFile n m
        ∧ openfile "-" mode ≠ TextStream.plainFile n m := by
  refine ⟨rfl, fun n m => ?_⟩
  show (if startswith mode "w" then TextStream.stdout else TextStream.stdin) ≠ _
      ∧ (if startswith mode "w" then TextStream.stdout else TextStream.stdin) ≠ _
      ∧ (if startswith mode "w" then TextStream.stdout else TextStream.stdin) ≠ _
      ∧ (if startswith mode "w" then TextStream.stdout else TextStream.stdin) ≠ _
  cases startswith mode "w" <;> simp

/-- C9: every unit yielded by `sentence_splitter` is non-empty (the
`if sentence:` guard only lets non-empty spans through, and the yielded
unit extends the span by its separator); in particular the empty document
yields an empty unit sequence, i.e. zero engine invocations under sentence
granularity. -/
theorem c9_units_nonempty (doc : String) :
    (∀ u ∈ sentence_splitter doc, u ≠ "")
    ∧ sentence_splitter "" = []
    ∧ engineCalls (process_file "-" "-" "sentence" id "") = [] := by
  refine ⟨?_, by decide, by decide⟩
  intro u hu
  unfold sentence_splitter at hu
  rw [List.mem_filterMap] at hu
  obtain ⟨p, hp, hf⟩ := hu
  by_cases he : p.1.isEmpty
  · rw [if_pos he] at hf
    cases hf
  · rw [if_neg he] at hf
    have hu2 : u = String.mk (p.1 ++ p.2) := (Option.some.inj hf).symm
    subst hu2
    intro hcon
    have hdata : p.1 ++ p.2 = [] := congrArg String.data hcon
    exact he (by simp [List.isEmpty_iff, (List.append_eq_nil.1 hdata).1])

/-- C9 (witness): the first unit of `"a. b"` is non-empty. -/
theorem c9_witness : "a. " ≠ "" :=
  (c9_units_nonempty "a. b").1 "a. " (by decide)

/-- C10: `openfile` classifies the sentinel `"-"` solely by whether the
mode starts with `"w"`: every mode not starting with `"w"` — append modes
such as `"at"` included — gets the standard input stream. -/
theorem c10_mode_classified_by_w_prefix (mode : String)
    (h : startswith mode "w" = false) :
    openfile "-" mode = TextStream.stdin := by
  show (if startswith mode "w" then TextStream.stdout else TextStream.stdin)
      = TextStream.stdin
  rw [h]
  rfl

/-- C10 (witness): the append mode `"at"` is routed to standard input. -/
theorem c10_witness : openfile "-" "at" = TextStream.stdin :=
  c10_mode_classified_by_w_prefix "at" (by decide)

/-- C5: the index descriptor attached to each unit is determined by the
granularity.  `"block"` reads the whole input as one unit, invokes the
engine exactly once on it and passes no descriptor to the writer;
`"line"` feeds the physical lines (terminators retained, so that the units
concatenate back to the document) with descriptors `("line", n)`, `n`
1-based in read order; `"sentence"` feeds the segmenter's units with
descriptors `("sentence", n)`, `n` 1-based in segmentation order. -/
theorem c5_granularity_descriptors (infile outfile doc : String)
    (proc : String → String) :
    engineCalls (process_file infile outfile "block" proc doc) = [doc]
    ∧ writeEvents (process_file infile outfile "block" proc doc)
        = [(proc doc, none)]
    ∧ engineCalls (process_file infile outfile "line" proc doc) = splitLines doc
    ∧ writeEvents (process_file infile outfile "line" proc doc)
        = ((splitLines doc).enum.map fun p => (proc p.2, some ("line", p.1 + 1)))
    ∧ concatList (splitLines doc) = doc
    ∧ engineCalls (process_file infile outfile "sentence" proc doc)
        = sentence_splitter doc
    ∧ writeEvents (process_file infile outfile "sentence" proc doc)
        = ((sentence_splitter doc).enum.map fun p =>
            (proc p.2, some ("sentence", p.1 + 1))) := by
  refine ⟨rfl, rfl, ?_, ?_, concat_splitLines doc, ?_, ?_⟩
  · rw [pf_line_trace, engineCalls_opens]
    exact (engineCalls_loop proc (fun n => some ("line", n + 1))
      (splitLines doc).enum).trans (List.enum_map_snd _)
  · rw [pf_line_trace, writeEvents_opens]
    exact writeEvents_loop proc (fun n => some ("line", n + 1))
      (splitLines doc).enum
  · rw [pf_sentence_trace, engineCalls_opens]
    exact (engineCalls_loop proc (fun n => some ("sentence", n + 1))
      (sentence_splitter doc).enum).trans (List.enum_map_snd _)
  · rw [pf_sentence_trace, writeEvents_opens]
    exact writeEvents_loop proc (fun n => some ("sentence", n + 1))
      (sentence_splitter doc).enum

/-- C6: in extract mode the writer emits exactly one JSON line per finding,
in encounter order; each line is the record with the detector name, value,
position and the index descriptor's key/value merged at the top level
(absent when the index is `none`, i.e. block granularity); non-ASCII
characters of the value are preserved verbatim in the emitted line, not
escaped. -/
theorem c6_extract_one_line_per_finding (findings : List PiiValue)
    (index : Option (String × Nat)) :
    (write_extract findings index).length = findings.length
    ∧ write_extract findings index
        = findings.map (fun p => recordLine p index)
    ∧ ∀ p ∈ findings, ∀ c ∈ p.value.data, 0x80 ≤ c.toNat →
        c ∈ (recordLine p index).data := by
  refine ⟨by simp [write_extract], rfl, ?_⟩
  intro p _ c hc h
  exact mem_recordLine_of_nonascii p index c hc h

/-- C6 (witness): one finding with a non-ASCII value under line
granularity: one line is emitted and the letter `á` survives verbatim. -/
theorem c6_witness :
    (write_extract [⟨⟨"EMAIL"⟩, "á@x", 3⟩] (some ("line", 2))).length = 1
    ∧ 'á' ∈ (recordLine ⟨⟨"EMAIL"⟩, "á@x", 3⟩ (some ("line", 2))).data := by
  have h := c6_extract_one_line_per_finding [⟨⟨"EMAIL"⟩, "á@x", 3⟩]
    (some ("line", 2))
  exact ⟨h.1, h.2.2 _ (by decide) 'á' (by decide) (by decide)⟩

/-- C7: for a document that is a single line and a single sentence, an
identity engine produces the same reconstructed output text under all
three granularities (namely the document itself). -/
theorem c7_granularity_equivalence (infile outfile doc : String)
    (hline : splitLines doc = [doc]) (hsent : sentence_splitter doc = [doc]) :
    outputText (process_file infile outfile "block" id doc) = doc
    ∧ outputText (process_file infile outfile "line" id doc) = doc
    ∧ outputText (process_file infile outfile "sentence" id doc) = doc := by
  refine ⟨?_, ?_, ?_⟩
  · unfold outputText
    rw [pf_block_trace]
    show concatList [id doc] = doc
    simp [concatList]
  · unfold outputText
    rw [pf_line_trace, writeEvents_opens,
      writeEvents_loop id (fun n => some ("line", n + 1)) (splitLines doc).enum,
      hline]
    show concatList [id doc] = doc
    simp [concatList]
  · unfold outputText
    rw [pf_sentence_trace, writeEvents_opens,
      writeEvents_loop id (fun n => some ("sentence", n + 1))
        (sentence_splitter doc).enum,
      hsent]
    show concatList [id doc] = doc
    simp [concatList]

/-- C7 (witness): the one-line, one-sentence document `"Hello world\n"`
is reconstructed identically under the three granularities. -/
theorem c7_witness :
    outputText (process_file "in.txt" "out.txt" "block" id "Hello world\n")
        = "Hello world\n"
    ∧ outputText (process_file "in.txt" "out.txt" "line" id "Hello world\n")
        = "Hello world\n"
    ∧ outputText (process_file "in.txt" "out.txt" "sentence" id "Hello world\n")
        = "Hello world\n" :=
  c7_granularity_equivalence "in.txt" "out.txt" "Hello world\n"
    (by decide) (by decide)
